import Mathlib

/-!
# Verification of the headless-pm coordination core

Shallow embedding of the process registry, the supervisor rate limiter,
the shutdown coordinator, the task-lease store and the agent runner's
task-execution workflow, translated from the Python sources
(`src/utils/process_registry.py`, `src/mcp/server.py`,
`agents/client/advanced_runner/...`), together with proofs about them.

Machine conventions: PIDs are `Nat`; wall-clock times (Python floats of
epoch seconds) are modelled by an arbitrary `LinearOrderedRing` `T`
(instantiated at `ℤ` in concrete witnesses); Python `dict`s keyed by PID
strings are association lists `List (Nat × _)` updated by the
insert/replace and erase functions below, mirroring the fact that a
Python dict holds at most one value per key; a JSON key that may be
absent from the document is an `Option`; host facts the code queries
(`psutil` availability, `psutil.pid_exists`) are explicit parameters.
-/

namespace HeadlessPM

variable {T : Type} [LinearOrderedRing T]

/-- Entry of the `processes` mapping of the registry document.
`repository` is optional because migrated legacy clients are written
without a `repository` field. -/
structure ProcInfo (T : Type) where
  ptype : String
  started : T
  repository : Option String
  lastHeartbeat : T
  clientId : Option String
deriving DecidableEq

/-- Legacy `clients` entry: `{pid, timestamp?}`. -/
structure LegacyClient (T : Type) where
  pid : Option Nat
  timestamp : Option T
deriving DecidableEq

/-- The registry JSON document, restricted to the fields the code reads or
writes.  `processes = none` models the `processes` key being absent from
the JSON object (the Python code distinguishes `'processes' in data` from
an empty dict). -/
structure RegistryDoc (T : Type) where
  processes : Option (List (Nat × ProcInfo T))
  primaryApi : Option Nat
  apiPid : Option Nat
  clients : List (String × LegacyClient T)
  rateLimits : List (Nat × List T)
  rateLimitBlockedPort : Option Nat
deriving DecidableEq

/-- `data.get('processes', {})`. -/
def RegistryDoc.procs (d : RegistryDoc T) : List (Nat × ProcInfo T) :=
  d.processes.getD []

/-- Association-list lookup (Python `dict[key]` / `key in dict`). -/
def alookup {α : Type} (l : List (Nat × α)) (k : Nat) : Option α :=
  match l with
  | [] => none
  | (k', v) :: rest => if k' = k then some v else alookup rest k

/-- Association-list insert-or-replace (Python `dict[key] = value`). -/
def ainsert {α : Type} (l : List (Nat × α)) (k : Nat) (v : α) : List (Nat × α) :=
  match l with
  | [] => [(k, v)]
  | (k', v') :: rest => if k' = k then (k, v) :: rest else (k', v') :: ainsert rest k v

/-- Association-list removal (Python `dict.pop(key)`). -/
def aerase {α : Type} (l : List (Nat × α)) (k : Nat) : List (Nat × α) :=
  match l with
  | [] => []
  | (k', v') :: rest => if k' = k then rest else (k', v') :: aerase rest k

/-- Replace the value at `k` if the key is present, otherwise leave the list
alone (Python mutation of a dict value fetched with `.get(key, fresh)`:
the mutation only lands in the outer dict when the key was present). -/
def aupdate {α : Type} (l : List (Nat × α)) (k : Nat) (v : α) : List (Nat × α) :=
  l.map fun e => if e.1 = k then (k, v) else e

/-- Python truthiness of an optional number (`None`, a missing key and `0`
are all falsy). -/
def optNatTruthy : Option Nat → Bool
  | none => false
  | some n => n ≠ 0

/-! ## `src/utils/process_registry.py` -/

/-- `check_pid_conflict(data, pid, process_type)`: true iff the PID is
already registered (in the flat mapping or in a legacy field) under a
different type. -/
def check_pid_conflict (data : RegistryDoc T) (pid : Nat) (ptype : String) : Bool :=
  (data.procs.any fun e => e.1 == pid && e.2.ptype != ptype)
  || (data.apiPid == some pid && ptype != "api_server")
  || (data.clients.any fun c => c.2.pid == some pid && ptype != "mcp_client")

/-- The `processes` entry written for an API server registration. -/
def apiServerInfo (now : T) (cwd : String) : ProcInfo T :=
  { ptype := "api_server", started := now, repository := some cwd,
    lastHeartbeat := now, clientId := none }

/-- One step of the legacy-clients migration loop. -/
def migrateClientStep (hasPsutil : Bool) (alive : Nat → Bool) (now : T)
    (acc : List (Nat × ProcInfo T)) (c : String × LegacyClient T) :
    List (Nat × ProcInfo T) :=
  match c.2.pid with
  | some q =>
      if q ≠ 0 ∧ hasPsutil = true ∧ alive q = true ∧ alookup acc q = none then
        ainsert acc q
          { ptype := "mcp_client", started := c.2.timestamp.getD now,
            repository := none, lastHeartbeat := now, clientId := some c.1 }
      else acc
  | none => acc

/-- `migrate_legacy_structure(data)`: translate the legacy
`api_pid` / `clients` layout into the flat `processes` mapping.  A live
legacy API PID is inserted (overwriting any colliding entry) and becomes
`primary_api`; live legacy clients are inserted unless their PID already
collides; everything legacy that is dead, or all of it when `psutil` is
unavailable, is dropped.  Fields other than the four structural keys are
preserved, `primary_api` itself is not. -/
def migrate_legacy_structure (hasPsutil : Bool) (alive : Nat → Bool) (now : T)
    (cwd : String) (data : RegistryDoc T) : RegistryDoc T :=
  if data.processes.isSome ∧ optNatTruthy data.apiPid = false ∧ data.clients = [] then
    data
  else
    let procs0 := data.procs
    let apiLive : Bool :=
      match data.apiPid with
      | some p => decide (p ≠ 0) && hasPsutil && alive p
      | none => false
    let procs1 :=
      match data.apiPid with
      | some p =>
          if apiLive then ainsert procs0 p (apiServerInfo now cwd) else procs0
      | none => procs0
    let primary1 : Option Nat :=
      match data.apiPid with
      | some p => if apiLive then some p else none
      | none => none
    let procs2 := data.clients.foldl (migrateClientStep hasPsutil alive now) procs1
    { processes := some procs2, primaryApi := primary1, apiPid := none,
      clients := [], rateLimits := data.rateLimits,
      rateLimitBlockedPort := data.rateLimitBlockedPort }

/-- The pure updater inside `register_api_server`: conflict ⇒ the
`ValueError` aborts the whole atomic update, otherwise migrate and insert
the caller as `api_server`, making it the `primary_api`. -/
def register_api_pid (hasPsutil : Bool) (alive : Nat → Bool) (now : T)
    (cwd : String) (pid : Nat) (data : RegistryDoc T) :
    Except String (RegistryDoc T) :=
  if check_pid_conflict data pid "api_server" then
    .error "PID already registered as different type"
  else
    let data1 :=
      if data.processes.isNone then { data with processes := some [] } else data
    let data2 := migrate_legacy_structure hasPsutil alive now cwd data1
    .ok { data2 with
          processes := some (ainsert data2.procs pid (apiServerInfo now cwd)),
          primaryApi := some pid }

/-- `register_api_server()`: the atomic update returns the new document,
or leaves the file untouched and yields `False` when the updater raised. -/
def register_api_server (hasAtomicOps hasPsutil : Bool) (alive : Nat → Bool)
    (now : T) (cwd : String) (pid : Nat) (data : RegistryDoc T) :
    Bool × RegistryDoc T :=
  if hasAtomicOps = false then (false, data)
  else
    match register_api_pid hasPsutil alive now cwd pid data with
    | .ok d => (true, d)
    | .error _ => (false, data)

/-- The pure updater inside `unregister_api_server`: migrate, then remove
the caller's entry only if it is registered as `api_server`; if the caller
was the `primary_api`, promote the first remaining API server or clear. -/
def find_api_server (procs : List (Nat × ProcInfo T)) : Option Nat :=
  match procs.find? (fun e => e.2.ptype == "api_server") with
  | some e => some e.1
  | none => none

def unregister_api_pid (hasPsutil : Bool) (alive : Nat → Bool) (now : T)
    (cwd : String) (pid : Nat) (data : RegistryDoc T) : RegistryDoc T :=
  let data1 := migrate_legacy_structure hasPsutil alive now cwd data
  let procs := data1.procs
  match alookup procs pid with
  | some info =>
      if info.ptype == "api_server" then
        let procs' := aerase procs pid
        let primary' :=
          if data1.primaryApi == some pid then find_api_server procs'
          else data1.primaryApi
        { data1 with processes := some procs', primaryApi := primary' }
      else { data1 with processes := some procs }
  | none => { data1 with processes := some procs }

/-- `unregister_api_server()`.  When the coordination-lock helper was
imported, the source evaluates the f-string argument
`"api_shutdown_" + port` in which the name `port` is never defined, so the
call raises `NameError` before any registry update runs; the surrounding
`except Exception` turns this into `False` with the document untouched.
Only the fallback branch (helper unavailable) performs the update. -/
def unregister_api_server (hasAtomicOps hasCoordLock hasPsutil : Bool)
    (alive : Nat → Bool) (now : T) (cwd : String) (pid : Nat)
    (data : RegistryDoc T) : Bool × RegistryDoc T :=
  if hasAtomicOps = false then (false, data)
  else if hasCoordLock then (false, data)
  else (true, unregister_api_pid hasPsutil alive now cwd pid data)

/-- The pure updater inside `cleanup_process_registry`: migrate, keep only
entries whose PID is alive (all entries are dropped when `psutil` is
unavailable), refresh their heartbeats, and repair `primary_api` when the
primary is dead. -/
def cleanup_stale_processes (hasPsutil : Bool) (alive : Nat → Bool) (now : T)
    (cwd : String) (data : RegistryDoc T) : RegistryDoc T :=
  let data1 := migrate_legacy_structure hasPsutil alive now cwd data
  let active := (data1.procs.filter fun e => hasPsutil && alive e.1).map
      fun e => (e.1, { e.2 with lastHeartbeat := now })
  let primary' :=
    match data1.primaryApi with
    | some p =>
        if p ≠ 0 ∧ (hasPsutil = false ∨ alive p = false) then find_api_server active
        else data1.primaryApi
    | none => data1.primaryApi
  { data1 with processes := some active, primaryApi := primary' }

/-- The file-deletion test of `cleanup_process_registry`: it inspects the
legacy keys `api_pid` and `clients` of the updated document
(`not result.get('api_pid') and not result.get('clients')`). -/
def cleanup_should_delete (result : RegistryDoc T) : Bool :=
  !optNatTruthy result.apiPid && result.clients.isEmpty

/-! ## `src/mcp/server.py` -/

/-- The pure updater inside `_register_mcp_client`: migrate first, then on
a PID conflict return the (migrated) document unchanged, otherwise insert
the caller as an `mcp_client` entry. -/
def add_client (hasPsutil : Bool) (alive : Nat → Bool) (now : T)
    (cwd clientId : String) (pid : Nat) (data : RegistryDoc T) : RegistryDoc T :=
  let data1 := migrate_legacy_structure hasPsutil alive now cwd data
  if check_pid_conflict data1 pid "mcp_client" then data1
  else
    { data1 with
      processes := some (ainsert data1.procs pid
        { ptype := "mcp_client", clientId := some clientId, started := now,
          repository := some cwd, lastHeartbeat := now }) }

/-- Number of `mcp_client` entries in the flat mapping. -/
def mcp_client_count (d : RegistryDoc T) : Nat :=
  (d.procs.filter fun e => e.2.ptype == "mcp_client").length

/-- Number of `api_server` entries in the flat mapping. -/
def api_server_count (d : RegistryDoc T) : Nat :=
  (d.procs.filter fun e => e.2.ptype == "api_server").length

/-- `_register_mcp_client()`: run the atomic update, then decide
`should_start` from the updated counts. -/
def register_mcp_client (hasPsutil : Bool) (alive : Nat → Bool) (now : T)
    (cwd clientId : String) (pid : Nat) (data : RegistryDoc T) :
    Bool × RegistryDoc T :=
  let result := add_client hasPsutil alive now cwd clientId pid data
  let shouldStart :=
    (mcp_client_count result == 1 && api_server_count result == 0)
    || api_server_count result == 0
  (shouldStart, result)

/-- The pure updater inside `_unregister_mcp_client`: migrate, then remove
the caller's entry only if its `client_id` matches this client. -/
def remove_client (hasPsutil : Bool) (alive : Nat → Bool) (now : T)
    (cwd clientId : String) (pid : Nat) (data : RegistryDoc T) : RegistryDoc T :=
  let data1 := migrate_legacy_structure hasPsutil alive now cwd data
  let procs := data1.procs
  match alookup procs pid with
  | some info =>
      if info.clientId == some clientId then
        { data1 with processes := some (aerase procs pid) }
      else { data1 with processes := some procs }
  | none => { data1 with processes := some procs }

/-- Outcome of `_unregister_mcp_client`: the decision returned to the
caller and whether the coordination file was unlinked. -/
structure UnregisterOutcome (T : Type) where
  shouldCleanup : Bool
  fileDeleted : Bool
  doc : RegistryDoc T
deriving DecidableEq

/-- `_unregister_mcp_client()`: run the atomic update and decide
`should_cleanup = (no mcp_client entries remain) and we_started_api`;
the coordination file is unlinked exactly when `should_cleanup` holds. -/
def unregister_mcp_client (hasPsutil : Bool) (alive : Nat → Bool) (now : T)
    (cwd clientId : String) (pid : Nat) (weStartedApi : Bool)
    (data : RegistryDoc T) : UnregisterOutcome T :=
  let result := remove_client hasPsutil alive now cwd clientId pid data
  let shouldCleanup := (mcp_client_count result == 0) && weStartedApi
  { shouldCleanup := shouldCleanup, fileDeleted := shouldCleanup, doc := result }

/-- The pre-emptive stale-PID pass `clean_stale_pids` inside
`ensure_api_available`: migrate, drop a dead legacy `api_pid` key, and
remove processes entries whose PID no longer exists.  It never touches
`primary_api`. -/
def clean_stale_pids_apistep (hasPsutil : Bool) (alive : Nat → Bool)
    (data1 : RegistryDoc T) : RegistryDoc T :=
  match data1.apiPid with
  | some p =>
      if p ≠ 0 ∧ hasPsutil = true ∧ alive p = false then
        { data1 with apiPid := none }
      else data1
  | none => data1

def clean_stale_pids (hasPsutil : Bool) (alive : Nat → Bool) (now : T)
    (cwd : String) (data : RegistryDoc T) : RegistryDoc T :=
  let data1 := migrate_legacy_structure hasPsutil alive now cwd data
  let data2 := clean_stale_pids_apistep hasPsutil alive data1
  if hasPsutil = true ∧ data2.processes.isSome then
    { data2 with processes := some (data2.procs.filter fun e => alive e.1) }
  else data2

/-- Whether `primary_api`, if non-null, references a `processes` entry of
type `api_server` (the registry invariant of the data model). -/
def primary_api_ok (d : RegistryDoc T) : Bool :=
  match d.primaryApi with
  | none => true
  | some p =>
      match alookup d.procs p with
      | some info => info.ptype == "api_server"
      | none => false

/-! ### Startup rate limiter (`_check_startup_rate_limit`) -/

/-- The attempts recorded for a port (`data['rate_limits'][port]['attempts']`,
absent ⇒ empty). -/
def attemptsOf (d : RegistryDoc T) (port : Nat) : List T :=
  (alookup d.rateLimits port).getD []

/-- The pure updater `update_and_check_rate_limit`: prune attempts older
than 5 minutes; if 3 or more of the survivors lie in the last 5 seconds,
set the blocked-signal key and do not record the attempt (the pruning has
already mutated the stored list in place); otherwise record `now` and
clear the signal key. -/
def update_and_check_rate_limit (now : T) (port : Nat) (data : RegistryDoc T) :
    RegistryDoc T :=
  let attempts := attemptsOf data port
  let pruned := attempts.filter fun t => now - 300 < t
  let recent := pruned.filter fun t => now - 5 < t
  if 3 ≤ recent.length then
    { data with rateLimits := aupdate data.rateLimits port pruned,
                rateLimitBlockedPort := some port }
  else
    { data with rateLimits := ainsert data.rateLimits port (pruned ++ [now]),
                rateLimitBlockedPort := none }

/-- `_check_startup_rate_limit(port)`: run the atomic update, then admit
the startup iff the blocked-signal key was not set for this port. -/
def check_startup_rate_limit (now : T) (port : Nat) (data : RegistryDoc T) :
    Bool × RegistryDoc T :=
  let final := update_and_check_rate_limit now port data
  (!(final.rateLimitBlockedPort == some port), final)

/-- The document a blocked check leaves behind: attempts pruned in place,
blocked-signal key set. -/
def rate_blocked_doc (now : T) (port : Nat) (data : RegistryDoc T) :
    RegistryDoc T :=
  { data with
    rateLimits := aupdate data.rateLimits port
      ((attemptsOf data port).filter fun t => now - 300 < t),
    rateLimitBlockedPort := some port }

/-- The document an admitted check leaves behind: pruned attempts plus the
new one, blocked-signal key cleared. -/
def rate_admit_doc (now : T) (port : Nat) (data : RegistryDoc T) :
    RegistryDoc T :=
  { data with
    rateLimits := ainsert data.rateLimits port
      (((attemptsOf data port).filter fun t => now - 300 < t) ++ [now]),
    rateLimitBlockedPort := none }

/-- A sequence of startup checks on one port: returns the final document
and the times of the admitted attempts, in order. -/
def rate_check_run (port : Nat) : List T → RegistryDoc T → RegistryDoc T × List T
  | [], d => (d, [])
  | t :: ts, d =>
      let step := check_startup_rate_limit t port d
      let rest := rate_check_run port ts step.2
      (rest.1, (if step.1 then [t] else []) ++ rest.2)

/-! ### Shutdown coordinator (`_perform_cleanup`) -/

/-- Python truthiness of an optional time. -/
def optTimeTruthy : Option T → Bool
  | none => false
  | some t => t ≠ 0

/-- The termination decision of `_perform_cleanup` once it has resolved
the recorded server PID to a live process: skip when the recorded start
time is set and the process's current creation time differs from it by
strictly more than 1 second (PID reuse), skip when the command line no
longer matches a server pattern, terminate otherwise.  `true` means a
termination signal is sent to the process. -/
def shutdown_sends_terminate (recordedStart : Option T) (currentCreate : T)
    (cmdlineMatches : Bool) : Bool :=
  if optTimeTruthy recordedStart ∧ |currentCreate - recordedStart.getD 0| > 1 then
    false
  else if cmdlineMatches = false then false
  else true

/-! ## `agents/client/advanced_runner/components/task_persistence.py`

The lease store performs plain filesystem writes; we embed each operation
as the trace of file operations it issues, so that write patterns
(in-place write vs. tempfile-plus-rename) are statable. -/

/-- A filesystem operation issued by the code.  `openWrite` is Python's
`open(path, 'w')` followed by writing `content` into the opened file
(truncate-in-place); `writeTemp` writes a fresh temporary file. -/
inductive FsOp
  | openWrite (path content : String)
  | writeTemp (path content : String)
  | rename (src dst : String)
  | unlink (path : String)
deriving DecidableEq

/-- Trace of `TaskPersistence.lock_task`: a single in-place write of the
serialized lease to the lock file. -/
def lock_task_ops (lockFile content : String) : List FsOp :=
  [.openWrite lockFile content]

/-- Trace of `TaskPersistence.update_lock`: nothing when no lease is held,
otherwise a single in-place rewrite of the lock file. -/
def update_lock_ops (lockFile : String) (hasLock : Bool) (content : String) :
    List FsOp :=
  if hasLock then [.openWrite lockFile content] else []

/-- Trace of `AtomicFileOperations._write_json_atomic` (the registry
writer): write a temporary file in the destination directory, then rename
it over the destination. -/
def write_json_atomic_ops (tmpPath path content : String) : List FsOp :=
  [.writeTemp tmpPath content, .rename tmpPath path]

/-- A trace writes `path` via the tempfile-plus-rename pattern: some
rename lands on `path` and no in-place write ever opens `path` itself. -/
def writesViaTempRename (ops : List FsOp) (path : String) : Bool :=
  (ops.any fun op => match op with
    | .rename _ dst => dst == path
    | _ => false)
  && (ops.all fun op => match op with
    | .openWrite p _ => p != path
    | _ => true)

/-! ## `agents/client/advanced_runner/components/claude_executor.py` -/

/-- The fields of a PM task the runner reads. -/
structure Task where
  id : Nat
  title : String
  status : String
  complexity : String
  skillLevel : String
deriving DecidableEq

/-- Outcome of the spawned LLM subprocess: it ran and exited with a code,
it overran the timeout, or spawning raised (binary not found, etc.). -/
inductive ClaudeOutcome
  | completed (exitCode : Int)
  | timedOut
  | spawnError
deriving DecidableEq

/-- `ClaudeExecutor.execute_task`: fail fast when the working directory is
missing or the instructions are unreadable; otherwise success iff the
subprocess exits 0, with timeout and spawn errors reported as failure. -/
def claude_execute_task (worktreeExists instructionsReadable : Bool)
    (outcome : ClaudeOutcome) : Bool × String :=
  if worktreeExists = false then (false, "Worktree path does not exist")
  else if instructionsReadable = false then (false, "Failed to read instructions")
  else
    match outcome with
    | .completed 0 => (true, "Task completed successfully")
    | .completed _ => (false, "Claude exited with nonzero code")
    | .timedOut => (false, "Claude execution timed out")
    | .spawnError => (false, "Failed to execute Claude")

/-! ## `agents/client/advanced_runner/advanced_agent_runner.py` -/

/-- `_get_completion_status`: the status a role writes on success. -/
def get_completion_status (role : String) : String :=
  if role == "backend_dev" then "dev_done"
  else if role == "frontend_dev" then "dev_done"
  else if role == "fullstack_dev" then "dev_done"
  else if role == "qa" then "completed"
  else if role == "architect" then "completed"
  else if role == "pm" then "completed"
  else "completed"

/-- The operator's answer at the pre-task gate. -/
inductive OperatorChoice
  | retryChecks
  | skipChecks
  | releaseTask
deriving DecidableEq

/-- The external outcomes one round of `_execute_task` can observe. -/
structure ExecuteEnv where
  preHookOk : Bool
  operatorChoice : OperatorChoice
  pmLockOk : Bool
  instructionsFound : Bool
  worktreeExists : Bool
  instructionsReadable : Bool
  claudeOutcome : ClaudeOutcome
deriving DecidableEq

/-- What one round of `_execute_task` did.  `retried` is the operator's
retry branch (a recursive call decides the rest); `releasedBeforeRun`
covers every early `return` that releases the lease without running the
subprocess; `finished` records whether the subprocess succeeded, which
status update was attempted, and whether the lease file was released. -/
inductive ExecuteResult
  | retried
  | releasedBeforeRun
  | finished (subprocessOk : Bool) (statusUpdate : Option String)
      (leaseReleased : Bool)
deriving DecidableEq

/-- The straight-line tail of `_execute_task` after the pre-task gate:
PM lock, instructions lookup, subprocess, status update on success,
post-task hook and worktree cleanup (not observable here), and the
unconditional `release_lock()` at the end. -/
def execute_task_main (role : String) (env : ExecuteEnv) : ExecuteResult :=
  if env.pmLockOk = false then .releasedBeforeRun
  else if env.instructionsFound = false then .releasedBeforeRun
  else
    let run := claude_execute_task env.worktreeExists env.instructionsReadable
      env.claudeOutcome
    let statusUpdate :=
      if run.1 then some (get_completion_status role) else none
    .finished run.1 statusUpdate true

/-- One round of `_execute_task`, starting at the pre-task hook. -/
def execute_task_step (role : String) (env : ExecuteEnv) : ExecuteResult :=
  if env.preHookOk = false then
    match env.operatorChoice with
    | .releaseTask => .releasedBeforeRun
    | .retryChecks => .retried
    | .skipChecks => execute_task_main role env
  else execute_task_main role env

/-- Whether the agent still holds its local lease after the round. -/
def leaseHeldAfter : ExecuteResult → Bool
  | .retried => true
  | .releasedBeforeRun => false
  | .finished _ _ released => !released

/-! ### Crash recovery (`_recover_locked_task`) -/

/-- The lease file contents the recovery path reads. -/
structure LockData where
  taskId : Nat
  agentId : String
  taskData : Option Task
deriving DecidableEq

/-- Result of asking the PM service for the leased task's current state. -/
inductive TaskQuery
  | ok (t : Task)
  | err
deriving DecidableEq

/-- What `_recover_locked_task` did: the task to resume (if any) and
whether it released the lease file. -/
structure RecoverResult where
  resumed : Option Task
  lockReleased : Bool
deriving DecidableEq

/-- `_recover_locked_task`: no lease or no stored task data ⇒ nothing to
do; otherwise refresh the task from the PM service; release the lease if
the refreshed status is `completed` or `cancelled` or the query failed;
resume the refreshed task otherwise. -/
def recover_locked_task (lockData : Option LockData) (query : TaskQuery) :
    RecoverResult :=
  match lockData with
  | none => { resumed := none, lockReleased := false }
  | some ld =>
      match ld.taskData with
      | none => { resumed := none, lockReleased := false }
      | some _ =>
          match query with
          | .err => { resumed := none, lockReleased := true }
          | .ok t =>
              if t.status == "completed" || t.status == "cancelled" then
                { resumed := none, lockReleased := true }
              else
                { resumed := some t, lockReleased := false }

/-- The task-status progression of the specification's data model, in
order. -/
def spec_status_order : List String :=
  ["created", "under_work", "dev_done", "testing", "qa_done",
   "documentation_done", "committed", "evaluation", "approved"]

/-- Spec-side comparator (from the specification's words, for refutation):
`status` lies strictly downstream of `produced` in the progression. -/
def spec_downstream (produced status : String) : Bool :=
  match spec_status_order.indexOf? produced, spec_status_order.indexOf? status with
  | some i, some j => i < j
  | _, _ => false

/-- Spec-side comparator (from the specification's words, for refutation):
a status is terminal for a role iff it is `completed`, `cancelled`, or any
status downstream of what the role produces. -/
def spec_terminal_for_role (role status : String) : Bool :=
  status == "completed" || status == "cancelled"
    || spec_downstream (get_completion_status role) status

/-! ## Derived predicates and operation sequences -/

/-- A trace writes `path` at all (in place or by rename). -/
def writesPath (ops : List FsOp) (path : String) : Bool :=
  ops.any fun op => match op with
    | .openWrite p _ => p == path
    | .rename _ dst => dst == path
    | _ => false

/-- The document has at most one `processes` entry per PID. -/
def pidUnique (d : RegistryDoc T) : Prop :=
  (d.procs.map Prod.fst).Nodup

/-- No PID is carried under two different entries (in particular never
under two different types). -/
def typeConsistent (d : RegistryDoc T) : Prop :=
  ∀ p i₁ i₂, (p, i₁) ∈ d.procs → (p, i₂) ∈ d.procs → i₁ = i₂

/-- The registry updates of the system, each with the host facts it
observes. -/
inductive RegistryOp (T : Type) where
  | regApiServer (hasAtomicOps hasPsutil : Bool) (alive : Nat → Bool) (now : T)
      (cwd : String) (pid : Nat)
  | regMcpClient (hasPsutil : Bool) (alive : Nat → Bool) (now : T)
      (cwd clientId : String) (pid : Nat)
  | unregApiServer (hasAtomicOps hasCoordLock hasPsutil : Bool) (alive : Nat → Bool)
      (now : T) (cwd : String) (pid : Nat)
  | unregMcpClient (hasPsutil : Bool) (alive : Nat → Bool) (now : T)
      (cwd clientId : String) (pid : Nat) (weStartedApi : Bool)
  | stalePass (hasPsutil : Bool) (alive : Nat → Bool) (now : T) (cwd : String)
  | preemptivePass (hasPsutil : Bool) (alive : Nat → Bool) (now : T) (cwd : String)
  | rateLimitCheck (now : T) (port : Nat)

/-- The document produced by one registry update. -/
def applyOp : RegistryOp T → RegistryDoc T → RegistryDoc T
  | .regApiServer a p al n c pid, d => (register_api_server a p al n c pid d).2
  | .regMcpClient p al n c cid pid, d => (register_mcp_client p al n c cid pid d).2
  | .unregApiServer a l p al n c pid, d => (unregister_api_server a l p al n c pid d).2
  | .unregMcpClient p al n c cid pid w, d => (unregister_mcp_client p al n c cid pid w d).doc
  | .stalePass p al n c, d => cleanup_stale_processes p al n c d
  | .preemptivePass p al n c, d => clean_stale_pids p al n c d
  | .rateLimitCheck n port, d => (check_startup_rate_limit n port d).2

/-- The document produced by a sequence of registry updates. -/
def applyOps (ops : List (RegistryOp T)) (d : RegistryDoc T) : RegistryDoc T :=
  ops.foldl (fun doc op => applyOp op doc) d

/-! ## Concrete documents used by counterexamples and witnesses -/

/-- A flat registry holding one live API server, PID 4242, as primary. -/
def docLiveApi : RegistryDoc ℤ :=
  { processes := some [(4242, apiServerInfo 0 "/repo")], primaryApi := some 4242,
    apiPid := none, clients := [], rateLimits := [], rateLimitBlockedPort := none }

/-- A flat registry holding one API server, PID 5, as primary. -/
def docStalePrimary : RegistryDoc ℤ :=
  { processes := some [(5, apiServerInfo 0 "/repo")], primaryApi := some 5,
    apiPid := none, clients := [], rateLimits := [], rateLimitBlockedPort := none }

/-- A registry with one flat API-server entry (PID 5) and one legacy
client entry (PID 7) still awaiting migration. -/
def docLegacyMix : RegistryDoc ℤ :=
  { processes := some [(5, apiServerInfo 0 "/repo")], primaryApi := none,
    apiPid := none, clients := [("c1", { pid := some 7, timestamp := none })],
    rateLimits := [], rateLimitBlockedPort := none }

/-- A flat registry holding one MCP client, PID 7. -/
def docLiveMcp : RegistryDoc ℤ :=
  { processes := some [(7,
      { ptype := "mcp_client", started := 0, repository := some "/repo",
        lastHeartbeat := 0, clientId := some "c7" })],
    primaryApi := none, apiPid := none, clients := [], rateLimits := [],
    rateLimitBlockedPort := none }

/-- A registry whose port-6969 window already holds three admitted
attempts, at times 0, 1 and 2. -/
def docThreeAttempts : RegistryDoc ℤ :=
  { processes := some [], primaryApi := none, apiPid := none, clients := [],
    rateLimits := [(6969, [0, 1, 2])], rateLimitBlockedPort := none }

/-- A task a developer agent leased, currently in a downstream status. -/
def taskQaDone : Task :=
  { id := 42, title := "t42", status := "qa_done", complexity := "minor",
    skillLevel := "senior" }

/-- The lease file contents for `taskQaDone`. -/
def lockTask42 : LockData :=
  { taskId := 42, agentId := "agent-1", taskData := some taskQaDone }

/-- An execution round in which everything succeeds except the LLM
subprocess, which hits its timeout. -/
def envTimeout : ExecuteEnv :=
  { preHookOk := true, operatorChoice := .skipChecks, pmLockOk := true,
    instructionsFound := true, worktreeExists := true,
    instructionsReadable := true, claudeOutcome := .timedOut }

/-- A purely legacy registry: only the legacy `api_pid` key (PID 9). -/
def docLegacyApi : RegistryDoc ℤ :=
  { processes := some [], primaryApi := none, apiPid := some 9, clients := [],
    rateLimits := [], rateLimitBlockedPort := none }

/-- A host on which exactly PID 9 exists. -/
def aliveNine : Nat → Bool := fun q => q == 9

/-! # Supporting lemmas -/

open List

lemma ainsert_cons_self {α : Type} (k : Nat) (v v' : α) (rest : List (Nat × α)) :
    ainsert ((k, v') :: rest) k v = (k, v) :: rest := by
  show (if k = k then (k, v) :: rest else (k, v') :: ainsert rest k v) = (k, v) :: rest
  simp

lemma ainsert_cons_ne {α : Type} (k k' : Nat) (v v' : α) (rest : List (Nat × α))
    (h : k' ≠ k) : ainsert ((k', v') :: rest) k v = (k', v') :: ainsert rest k v := by
  show (if k' = k then (k, v) :: rest else (k', v') :: ainsert rest k v)
      = (k', v') :: ainsert rest k v
  simp [h]

lemma alookup_ainsert_self {α : Type} (l : List (Nat × α)) (k : Nat) (v : α) :
    alookup (ainsert l k v) k = some v := by
  induction l with
  | nil => simp [ainsert, alookup]
  | cons e rest ih =>
      obtain ⟨k', v'⟩ := e
      by_cases h : k' = k <;> simp [ainsert, alookup, h, ih]

lemma alookup_ainsert_ne {α : Type} (l : List (Nat × α)) (k q : Nat) (v : α)
    (h : k ≠ q) : alookup (ainsert l k v) q = alookup l q := by
  induction l with
  | nil => simp [ainsert, alookup, h]
  | cons e rest ih =>
      obtain ⟨k', v'⟩ := e
      by_cases h' : k' = k
      · subst h'; simp [ainsert, alookup, h]
      · simp [ainsert, alookup, h', ih]

lemma alookup_aupdate_self {α : Type} (l : List (Nat × α)) (k : Nat) (v : α) :
    alookup (aupdate l k v) k = (alookup l k).map fun _ => v := by
  induction l with
  | nil => simp [aupdate, alookup]
  | cons e rest ih =>
      obtain ⟨k', v'⟩ := e
      by_cases h : k' = k
      · subst h
        simp only [aupdate, List.map_cons]
        simp [alookup]
      · simp only [aupdate, List.map_cons] at ih ⊢
        rw [show (if ((k', v') : Nat × α).1 = k then (k, v) else (k', v'))
              = (k', v') from by simp [h]]
        simp [alookup, h, ih]

lemma aerase_sublist {α : Type} (l : List (Nat × α)) (k : Nat) :
    aerase l k <+ l := by
  induction l with
  | nil => simp [aerase]
  | cons e rest ih =>
      obtain ⟨k', v'⟩ := e
      by_cases h : k' = k
      · simp [aerase, h]
      · simpa [aerase, h] using ih.cons₂ (k', v')

lemma mem_map_fst_ainsert {α : Type} (l : List (Nat × α)) (k q : Nat) (v : α) :
    q ∈ (ainsert l k v).map Prod.fst ↔ q ∈ l.map Prod.fst ∨ q = k := by
  induction l with
  | nil => simp [ainsert]
  | cons e rest ih =>
      obtain ⟨k', v'⟩ := e
      by_cases h : k' = k
      · subst h; simp [ainsert]; tauto
      · simp [ainsert, h, ih]; tauto

lemma nodup_map_fst_ainsert {α : Type} (l : List (Nat × α)) (k : Nat) (v : α)
    (h : (l.map Prod.fst).Nodup) : ((ainsert l k v).map Prod.fst).Nodup := by
  induction l with
  | nil => simp [ainsert]
  | cons e rest ih =>
      obtain ⟨k', v'⟩ := e
      simp only [List.map_cons, List.nodup_cons] at h
      by_cases hk : k' = k
      · subst hk
        rw [ainsert_cons_self]
        simp only [List.map_cons, List.nodup_cons]
        exact h
      · rw [ainsert_cons_ne _ _ _ _ _ hk]
        simp only [List.map_cons, List.nodup_cons]
        refine ⟨?_, ih h.2⟩
        rw [mem_map_fst_ainsert]
        rintro (hm | rfl)
        · exact h.1 hm
        · exact hk rfl

lemma map_fst_aupdate {α : Type} (l : List (Nat × α)) (k : Nat) (v : α) :
    (aupdate l k v).map Prod.fst = l.map Prod.fst := by
  unfold aupdate
  rw [List.map_map]
  refine List.map_congr_left ?_
  intro e _
  by_cases h : e.1 = k <;> simp [h]

lemma migrate_legacy_clears {T : Type} [LinearOrderedRing T]
    (hasPsutil : Bool) (alive : Nat → Bool) (now : T) (cwd : String)
    (d : RegistryDoc T) :
    optNatTruthy (migrate_legacy_structure hasPsutil alive now cwd d).apiPid = false
    ∧ (migrate_legacy_structure hasPsutil alive now cwd d).clients = [] := by
  unfold migrate_legacy_structure
  split
  · next h => exact ⟨h.2.1, h.2.2⟩
  · exact ⟨rfl, rfl⟩

/-! # Claim theorems -/

/-- Claim C5 (code bug): whenever the coordination-lock helper is
available — the normal import situation — `unregister_api_server` hits the
undefined name `port`, returns `False` and leaves the registry unchanged,
for every input document; the inner updater it never reaches would have
removed the caller's API-server entry and cleared the primary, as the
claim describes. -/
theorem C5_unregister_api_server_namerror :
    (∀ (T : Type) [LinearOrderedRing T] (hasAtomicOps hasPsutil : Bool)
        (alive : Nat → Bool) (now : T) (cwd : String) (pid : Nat)
        (d : RegistryDoc T),
      unregister_api_server hasAtomicOps true hasPsutil alive now cwd pid d
        = (false, d))
    ∧ unregister_api_server true true true (fun _ => true) (0 : ℤ) "/repo" 4242
        docLiveApi = (false, docLiveApi)
    ∧ unregister_api_pid true (fun _ => true) (0 : ℤ) "/repo" 4242 docLiveApi
        = { docLiveApi with processes := some [], primaryApi := none } := by
  refine ⟨?_, by decide, by decide⟩
  intro T _ hasAtomicOps hasPsutil alive now cwd pid d
  unfold unregister_api_server
  split <;> simp

/-- Claim C6 (code bug): the file-deletion test of
`cleanup_process_registry` looks at the legacy keys `api_pid` and
`clients`, which migration has just removed, so a cleanup pass decides to
delete the registry file for every document — in particular for a registry
that still holds a live process entry. -/
theorem C6_cleanup_always_deletes_file :
    (∀ (T : Type) [LinearOrderedRing T] (hasPsutil : Bool) (alive : Nat → Bool)
        (now : T) (cwd : String) (d : RegistryDoc T),
      cleanup_should_delete (cleanup_stale_processes hasPsutil alive now cwd d)
        = true)
    ∧ (cleanup_stale_processes true (fun _ => true) (0 : ℤ) "/repo" docLiveApi).procs
        ≠ []
    ∧ cleanup_should_delete
        (cleanup_stale_processes true (fun _ => true) (0 : ℤ) "/repo" docLiveApi)
        = true := by
  refine ⟨?_, by decide, by decide⟩
  intro T _ hasPsutil alive now cwd d
  have h := migrate_legacy_clears hasPsutil alive now cwd d
  unfold cleanup_stale_processes cleanup_should_delete
  simp only []
  rw [h.1, h.2]
  rfl

/-- Claim C7 (code bug): the pre-emptive stale-PID pass `clean_stale_pids`
removes a dead primary's `processes` entry but never updates
`primary_api`, so it breaks the invariant that a non-null `primary_api`
references an `api_server` entry: on a registry whose only entry is the
primary API server and whose PID is dead, the pass leaves `primary_api`
dangling. -/
theorem C7_clean_stale_pids_breaks_primary :
    primary_api_ok docStalePrimary = true
    ∧ clean_stale_pids true (fun _ => false) (0 : ℤ) "/repo" docStalePrimary
        = { docStalePrimary with processes := some [] }
    ∧ primary_api_ok
        (clean_stale_pids true (fun _ => false) (0 : ℤ) "/repo" docStalePrimary)
        = false := by
  refine ⟨by decide, by decide, by decide⟩

/-- Claim C8 (counterexample): with a recorded creation time of 100 and a
current creation time of 101 — a difference of exactly 1 second, so "at
least 1 second" — the shutdown coordinator does NOT skip: it sends the
termination signal, because the code only skips when the difference is
strictly greater than 1. -/
theorem C8_counterexample_one_second_still_terminates :
    shutdown_sends_terminate (T := ℤ) (some 100) 101 true = true := by decide

/-- Claim C8 (amended): if the recorded creation time is set and the
current creation time differs from it by strictly MORE than 1 second, the
shutdown coordinator skips termination and sends no signal. -/
theorem C8_pid_reuse_skips_termination {T : Type} [LinearOrderedRing T]
    (t0 tc : T) (cm : Bool) (h0 : t0 ≠ 0) (h1 : 1 < |tc - t0|) :
    shutdown_sends_terminate (some t0) tc cm = false := by
  unfold shutdown_sends_terminate
  rw [if_pos]
  exact ⟨by simp [optTimeTruthy, h0], by simpa using h1⟩

/-- Witness for `C8_pid_reuse_skips_termination` at recorded time 100 and
current creation time 102. -/
theorem C8_pid_reuse_skips_termination_witness :
    (100 : ℤ) ≠ 0 ∧ 1 < |(102 : ℤ) - 100|
    ∧ shutdown_sends_terminate (some (100 : ℤ)) 102 true = false :=
  ⟨by decide, by decide,
    C8_pid_reuse_skips_termination 100 102 true (by decide) (by decide)⟩

/-- Claim C9 (counterexample): `lock_task` writes the lease by opening the
lease path directly and writing into it — a single in-place write, not the
tempfile-plus-rename pattern. -/
theorem C9_lease_write_not_temp_rename :
    lock_task_ops "agent-a1.lock" "lease" = [.openWrite "agent-a1.lock" "lease"]
    ∧ writesViaTempRename (lock_task_ops "agent-a1.lock" "lease") "agent-a1.lock"
        = false := by
  exact ⟨rfl, by decide⟩

/-- Claim C9 (amended): every lease-file write (`lock_task`, and
`update_lock` when a lease is held) is a single direct in-place write of
the lease path, with no temporary file and no rename; the
tempfile-plus-rename pattern is what the registry writer
`_write_json_atomic` uses. -/
theorem C9_lease_writes_are_direct (lockFile content tmpPath : String) :
    writesPath (lock_task_ops lockFile content) lockFile = true
    ∧ writesViaTempRename (lock_task_ops lockFile content) lockFile = false
    ∧ update_lock_ops lockFile true content = [.openWrite lockFile content]
    ∧ writesViaTempRename (write_json_atomic_ops tmpPath lockFile content)
        lockFile = true := by
  refine ⟨?_, ?_, rfl, ?_⟩
  · simp [writesPath, lock_task_ops]
  · simp [writesViaTempRename, lock_task_ops]
  · simp [writesViaTempRename, write_json_atomic_ops]

/-- Claim C1 (counterexample): a round in which the LLM subprocess times
out while everything else succeeds is reported as failed, yet the lease
file is released at the end of the round — no operator was involved. -/
theorem C1_counterexample_failure_releases_lease :
    execute_task_step "backend_dev" envTimeout
      = .finished false none true
    ∧ leaseHeldAfter (execute_task_step "backend_dev" envTimeout) = false := by
  exact ⟨by decide, by decide⟩

/-- Claim C1 (amended): when the LLM subprocess step fails (binary not
found, nonzero exit code, or timeout) in a round whose pre-task hook and
PM lock succeeded and whose instructions were found, the execution is
reported as failed, no status update is attempted, and the lease file is
released at the end of the round — it is not retained for retry. -/
theorem C1_subprocess_failure_reported_lease_released (role : String)
    (env : ExecuteEnv) (h1 : env.preHookOk = true) (h2 : env.pmLockOk = true)
    (h3 : env.instructionsFound = true)
    (h4 : (claude_execute_task env.worktreeExists env.instructionsReadable
            env.claudeOutcome).1 = false) :
    execute_task_step role env = .finished false none true := by
  unfold execute_task_step execute_task_main
  simp [h1, h2, h3, h4]

/-- Witness for `C1_subprocess_failure_reported_lease_released` on the
timeout round and the `qa` role. -/
theorem C1_subprocess_failure_witness :
    envTimeout.preHookOk = true ∧ envTimeout.pmLockOk = true
    ∧ envTimeout.instructionsFound = true
    ∧ (claude_execute_task envTimeout.worktreeExists
        envTimeout.instructionsReadable envTimeout.claudeOutcome).1 = false
    ∧ execute_task_step "qa" envTimeout = .finished false none true :=
  ⟨rfl, rfl, rfl, by decide,
    C1_subprocess_failure_reported_lease_released "qa" envTimeout rfl rfl rfl
      (by decide)⟩

/-- Claim C3 (counterexample): for a developer role, `qa_done` is a status
downstream of what the role produces (`dev_done`), so the claim calls it
terminal; the recovery path nevertheless resumes the task and keeps the
lease, because the code only treats `completed` and `cancelled` as
terminal. -/
theorem C3_counterexample_downstream_status_resumes :
    spec_terminal_for_role "backend_dev" "qa_done" = true
    ∧ recover_locked_task (some lockTask42) (.ok taskQaDone)
        = { resumed := some taskQaDone, lockReleased := false } := by
  exact ⟨by decide, by decide⟩

/-- Claim C3 (amended): on a runner start whose lease file holds a task,
the lease is released (and the runner proceeds to idle polling) exactly
when the PM query fails or reports status `completed` or `cancelled`;
every other reported status — including statuses downstream of what the
role produces — resumes that task with the lease retained. -/
theorem C3_recovery_release_iff_completed_or_cancelled
    (ld : LockData) (t0 : Task) (h : ld.taskData = some t0) :
    recover_locked_task (some ld) .err
      = { resumed := none, lockReleased := true }
    ∧ (∀ t : Task, t.status = "completed" ∨ t.status = "cancelled" →
        recover_locked_task (some ld) (.ok t)
          = { resumed := none, lockReleased := true })
    ∧ (∀ t : Task, t.status ≠ "completed" → t.status ≠ "cancelled" →
        recover_locked_task (some ld) (.ok t)
          = { resumed := some t, lockReleased := false }) := by
  refine ⟨by simp [recover_locked_task, h], ?_, ?_⟩
  · rintro t (hs | hs) <;> simp [recover_locked_task, h, hs]
  · intro t h1 h2
    simp [recover_locked_task, h, h1, h2]

/-- Witness for `C3_recovery_release_iff_completed_or_cancelled` on the
concrete lease of task 42. -/
theorem C3_recovery_release_witness :
    lockTask42.taskData = some taskQaDone
    ∧ recover_locked_task (some lockTask42) .err
        = { resumed := none, lockReleased := true } :=
  ⟨rfl, (C3_recovery_release_iff_completed_or_cancelled lockTask42 taskQaDone
    rfl).1⟩

lemma alookup_migrateClientStep_none {T : Type} [LinearOrderedRing T]
    (hasPsutil : Bool) (alive : Nat → Bool) (now : T)
    (acc : List (Nat × ProcInfo T)) (c : String × LegacyClient T) (q : Nat)
    (hq : ¬(hasPsutil = true ∧ alive q = true)) (h : alookup acc q = none) :
    alookup (migrateClientStep hasPsutil alive now acc c) q = none := by
  obtain ⟨cid, cpid, cts⟩ := c
  cases cpid with
  | none => exact h
  | some r =>
      simp only [migrateClientStep]
      split
      · next hcond =>
          have hrq : r ≠ q := by
            rintro rfl
            exact hq ⟨hcond.2.1, hcond.2.2.1⟩
          rw [alookup_ainsert_ne _ _ _ _ hrq]
          exact h
      · exact h

lemma alookup_foldl_migrateClientStep_none {T : Type} [LinearOrderedRing T]
    (hasPsutil : Bool) (alive : Nat → Bool) (now : T)
    (clients : List (String × LegacyClient T)) (q : Nat)
    (hq : ¬(hasPsutil = true ∧ alive q = true)) :
    ∀ acc, alookup acc q = none →
      alookup (clients.foldl (migrateClientStep hasPsutil alive now) acc) q
        = none := by
  induction clients with
  | nil => intro acc h; exact h
  | cons c rest ih =>
      intro acc h
      exact ih _ (alookup_migrateClientStep_none hasPsutil alive now acc c q hq h)

lemma alookup_migrateClientStep_isSome {T : Type} [LinearOrderedRing T]
    (hasPsutil : Bool) (alive : Nat → Bool) (now : T)
    (acc : List (Nat × ProcInfo T)) (c : String × LegacyClient T) (q : Nat)
    (h : (alookup acc q).isSome = true) :
    (alookup (migrateClientStep hasPsutil alive now acc c) q).isSome = true := by
  obtain ⟨cid, cpid, cts⟩ := c
  cases cpid with
  | none => exact h
  | some r =>
      simp only [migrateClientStep]
      split
      · next hcond =>
          have hrq : r ≠ q := by
            rintro rfl
            rw [hcond.2.2.2] at h
            simp at h
          rw [alookup_ainsert_ne _ _ _ _ hrq]
          exact h
      · exact h

lemma alookup_foldl_migrateClientStep_isSome {T : Type} [LinearOrderedRing T]
    (hasPsutil : Bool) (alive : Nat → Bool) (now : T)
    (clients : List (String × LegacyClient T)) (q : Nat) :
    ∀ acc, (alookup acc q).isSome = true →
      (alookup (clients.foldl (migrateClientStep hasPsutil alive now) acc)
        q).isSome = true := by
  induction clients with
  | nil => intro acc h; exact h
  | cons c rest ih =>
      intro acc h
      exact ih _ (alookup_migrateClientStep_isSome hasPsutil alive now acc c q h)

lemma foldl_migrateClientStep_no_psutil {T : Type} [LinearOrderedRing T]
    (alive : Nat → Bool) (now : T) (clients : List (String × LegacyClient T)) :
    ∀ acc, clients.foldl (migrateClientStep false alive now) acc = acc := by
  induction clients with
  | nil => intro acc; rfl
  | cons c rest ih =>
      intro acc
      have hstep : migrateClientStep false alive now acc c = acc := by
        obtain ⟨cid, cpid, cts⟩ := c
        cases cpid with
        | none => rfl
        | some r =>
            simp only [migrateClientStep]
            split
            · next hcond => exact absurd hcond.2.1 (by simp)
            · rfl
      rw [List.foldl_cons, hstep, ih]

/-- Claim C10: migration carries a legacy `api_pid` into the flat
`processes` mapping exactly when `psutil` is available and reports the PID
live; any legacy entry whose PID is dead is silently dropped; and when
`psutil` is unavailable, migration translates no legacy entry at all (the
flat mapping is exactly what it was before). -/
theorem C10_migration_drops_dead_legacy {T : Type} [LinearOrderedRing T]
    (hasPsutil : Bool) (alive : Nat → Bool) (now : T) (cwd : String)
    (d : RegistryDoc T) (p : Nat) (hapi : d.apiPid = some p) (hp : p ≠ 0)
    (hnot : alookup d.procs p = none) :
    ((alookup (migrate_legacy_structure hasPsutil alive now cwd d).procs
        p).isSome = true ↔ hasPsutil = true ∧ alive p = true)
    ∧ (hasPsutil = false →
        (migrate_legacy_structure hasPsutil alive now cwd d).procs = d.procs)
    ∧ (∀ q, alookup d.procs q = none →
        ¬(hasPsutil = true ∧ alive q = true) →
        alookup (migrate_legacy_structure hasPsutil alive now cwd d).procs q
          = none) := by
  have hcond : ¬(d.processes.isSome = true ∧ optNatTruthy d.apiPid = false
      ∧ d.clients = []) := by
    rintro ⟨-, h2, -⟩
    rw [hapi] at h2
    simp [optNatTruthy, hp] at h2
  have hmig : (migrate_legacy_structure hasPsutil alive now cwd d).procs
      = d.clients.foldl (migrateClientStep hasPsutil alive now)
          (if (decide (p ≠ 0) && hasPsutil && alive p) = true
            then ainsert d.procs p (apiServerInfo now cwd) else d.procs) := by
    unfold migrate_legacy_structure
    rw [if_neg hcond]
    simp only [hapi, RegistryDoc.procs, Option.getD_some]
  have hmigF : ¬(hasPsutil = true ∧ alive p = true) →
      (migrate_legacy_structure hasPsutil alive now cwd d).procs
        = d.clients.foldl (migrateClientStep hasPsutil alive now) d.procs := by
    intro hno
    have hlive : (decide (p ≠ 0) && hasPsutil && alive p) = false := by
      by_contra hcon
      rw [Bool.not_eq_false] at hcon
      simp only [Bool.and_eq_true, decide_eq_true_eq] at hcon
      exact hno ⟨hcon.1.2, hcon.2⟩
    rw [hmig, hlive]
    simp
  have hmigT : hasPsutil = true → alive p = true →
      (migrate_legacy_structure hasPsutil alive now cwd d).procs
        = d.clients.foldl (migrateClientStep hasPsutil alive now)
            (ainsert d.procs p (apiServerInfo now cwd)) := by
    intro hps hal
    have hlive : (decide (p ≠ 0) && hasPsutil && alive p) = true := by
      simp [hp, hps, hal]
    rw [hmig, hlive]
    simp
  refine ⟨⟨?_, ?_⟩, ?_, ?_⟩
  · intro hsome
    by_contra hno
    rw [hmigF hno, alookup_foldl_migrateClientStep_none hasPsutil alive now
      d.clients p hno d.procs hnot] at hsome
    simp at hsome
  · rintro ⟨hps, hal⟩
    rw [hmigT hps hal]
    refine alookup_foldl_migrateClientStep_isSome hasPsutil alive now
      d.clients p _ ?_
    rw [alookup_ainsert_self]
    rfl
  · intro hps
    have hno : ¬(hasPsutil = true ∧ alive p = true) := by simp [hps]
    rw [hmigF hno]
    subst hps
    rw [foldl_migrateClientStep_no_psutil]
  · intro q hqnone hq
    rw [hmig]
    refine alookup_foldl_migrateClientStep_none hasPsutil alive now d.clients
      q hq _ ?_
    split
    · next hlive =>
        have hpq : p ≠ q := by
          rintro rfl
          simp only [Bool.and_eq_true, decide_eq_true_eq] at hlive
          exact hq ⟨hlive.1.2, hlive.2⟩
        rw [alookup_ainsert_ne _ _ _ _ hpq]
        exact hqnone
    · exact hqnone

/-- Witness for `C10_migration_drops_dead_legacy` on a purely legacy
document with a live API PID 9. -/
theorem C10_migration_drops_dead_legacy_witness :
    docLegacyApi.apiPid = some 9 ∧ (9 : Nat) ≠ 0
    ∧ alookup docLegacyApi.procs 9 = none
    ∧ ((alookup (migrate_legacy_structure true aliveNine (0 : ℤ) "/repo"
          docLegacyApi).procs 9).isSome = true
        ↔ true = true ∧ aliveNine 9 = true) :=
  ⟨rfl, by decide, rfl,
    (C10_migration_drops_dead_legacy true aliveNine 0 "/repo" docLegacyApi 9
      rfl (by decide) rfl).1⟩

lemma nodup_migrateClientStep {T : Type} [LinearOrderedRing T]
    (hasPsutil : Bool) (alive : Nat → Bool) (now : T)
    (acc : List (Nat × ProcInfo T)) (c : String × LegacyClient T)
    (h : (acc.map Prod.fst).Nodup) :
    ((migrateClientStep hasPsutil alive now acc c).map Prod.fst).Nodup := by
  obtain ⟨cid, cpid, cts⟩ := c
  cases cpid with
  | none => exact h
  | some r =>
      simp only [migrateClientStep]
      split
      · exact nodup_map_fst_ainsert _ _ _ h
      · exact h

lemma nodup_foldl_migrateClientStep {T : Type} [LinearOrderedRing T]
    (hasPsutil : Bool) (alive : Nat → Bool) (now : T)
    (clients : List (String × LegacyClient T)) :
    ∀ acc, (acc.map Prod.fst).Nodup →
      ((clients.foldl (migrateClientStep hasPsutil alive now) acc).map
        Prod.fst).Nodup := by
  induction clients with
  | nil => intro acc h; exact h
  | cons c rest ih =>
      intro acc h
      exact ih _ (nodup_migrateClientStep hasPsutil alive now acc c h)

lemma pidUnique_migrate {T : Type} [LinearOrderedRing T]
    (hasPsutil : Bool) (alive : Nat → Bool) (now : T) (cwd : String)
    (d : RegistryDoc T) (h : pidUnique d) :
    pidUnique (migrate_legacy_structure hasPsutil alive now cwd d) := by
  unfold pidUnique at h ⊢
  unfold migrate_legacy_structure
  split
  · exact h
  · simp only [RegistryDoc.procs, Option.getD_some]
    refine nodup_foldl_migrateClientStep _ _ _ _ _ ?_
    cases d.apiPid with
    | none => exact h
    | some p =>
        simp only []
        split
        · exact nodup_map_fst_ainsert _ _ _ h
        · exact h

lemma pidUnique_of_procs_eq {T : Type} [LinearOrderedRing T]
    (d d' : RegistryDoc T) (hp : d'.procs = d.procs) (h : pidUnique d) :
    pidUnique d' := by
  unfold pidUnique at h ⊢
  rw [hp]
  exact h

lemma pidUnique_register_api_server {T : Type} [LinearOrderedRing T]
    (a p : Bool) (al : Nat → Bool) (n : T) (c : String) (pid : Nat)
    (d : RegistryDoc T) (h : pidUnique d) :
    pidUnique (register_api_server a p al n c pid d).2 := by
  unfold register_api_server
  split
  · exact h
  cases hreg : register_api_pid p al n c pid d with
  | error e => exact h
  | ok d2 =>
      simp only []
      unfold register_api_pid at hreg
      split at hreg
      · simp at hreg
      · simp only [Except.ok.injEq] at hreg
        subst hreg
        unfold pidUnique
        simp only [RegistryDoc.procs, Option.getD_some]
        apply nodup_map_fst_ainsert
        have hpre : pidUnique
            (if d.processes.isNone then { d with processes := some [] } else d) := by
          split
          · next hn =>
              unfold pidUnique
              simp only [RegistryDoc.procs, Option.getD_some]
              exact List.nodup_nil
          · exact h
        exact pidUnique_migrate p al n c _ hpre

lemma pidUnique_add_client {T : Type} [LinearOrderedRing T]
    (hasPsutil : Bool) (alive : Nat → Bool) (now : T) (cwd cid : String)
    (pid : Nat) (d : RegistryDoc T) (h : pidUnique d) :
    pidUnique (add_client hasPsutil alive now cwd cid pid d) := by
  have hmid := pidUnique_migrate hasPsutil alive now cwd d h
  unfold add_client
  simp only []
  split
  · exact hmid
  · unfold pidUnique
    simp only [RegistryDoc.procs, Option.getD_some]
    exact nodup_map_fst_ainsert _ _ _ hmid

lemma pidUnique_unregister_api_pid {T : Type} [LinearOrderedRing T]
    (hasPsutil : Bool) (alive : Nat → Bool) (now : T) (cwd : String)
    (pid : Nat) (d : RegistryDoc T) (h : pidUnique d) :
    pidUnique (unregister_api_pid hasPsutil alive now cwd pid d) := by
  have hmid := pidUnique_migrate hasPsutil alive now cwd d h
  unfold unregister_api_pid
  simp only []
  have herase : (((aerase (migrate_legacy_structure hasPsutil alive now cwd
      d).procs pid)).map Prod.fst).Nodup := by
    refine List.Nodup.sublist ?_ hmid
    exact (aerase_sublist _ _).map Prod.fst
  split
  · split
    · unfold pidUnique
      simp only [RegistryDoc.procs, Option.getD_some]
      exact herase
    · unfold pidUnique
      simp only [RegistryDoc.procs, Option.getD_some]
      exact hmid
  · unfold pidUnique
    simp only [RegistryDoc.procs, Option.getD_some]
    exact hmid

lemma pidUnique_remove_client {T : Type} [LinearOrderedRing T]
    (hasPsutil : Bool) (alive : Nat → Bool) (now : T) (cwd cid : String)
    (pid : Nat) (d : RegistryDoc T) (h : pidUnique d) :
    pidUnique (remove_client hasPsutil alive now cwd cid pid d) := by
  have hmid := pidUnique_migrate hasPsutil alive now cwd d h
  unfold remove_client
  simp only []
  split
  · split
    · unfold pidUnique
      simp only [RegistryDoc.procs, Option.getD_some]
      refine List.Nodup.sublist ?_ hmid
      exact (aerase_sublist _ _).map Prod.fst
    · unfold pidUnique
      simp only [RegistryDoc.procs, Option.getD_some]
      exact hmid
  · unfold pidUnique
    simp only [RegistryDoc.procs, Option.getD_some]
    exact hmid

lemma nodup_map_fst_of_fst_preserved {α : Type} (l : List (Nat × α))
    (f : Nat × α → Nat × α) (hf : ∀ e, (f e).1 = e.1)
    (h : (l.map Prod.fst).Nodup) : ((l.map f).map Prod.fst).Nodup := by
  rw [List.map_map]
  have heq : l.map (Prod.fst ∘ f) = l.map Prod.fst :=
    List.map_congr_left fun e _ => hf e
  rw [heq]
  exact h

lemma pidUnique_cleanup_stale {T : Type} [LinearOrderedRing T]
    (hasPsutil : Bool) (alive : Nat → Bool) (now : T) (cwd : String)
    (d : RegistryDoc T) (h : pidUnique d) :
    pidUnique (cleanup_stale_processes hasPsutil alive now cwd d) := by
  have hmid := pidUnique_migrate hasPsutil alive now cwd d h
  unfold pidUnique at hmid ⊢
  unfold cleanup_stale_processes
  simp only [RegistryDoc.procs, Option.getD_some]
  refine nodup_map_fst_of_fst_preserved _ _ (fun e => rfl) ?_
  exact List.Nodup.sublist ((List.filter_sublist _).map Prod.fst) hmid

lemma procs_clean_stale_pids_apistep {T : Type} [LinearOrderedRing T]
    (hasPsutil : Bool) (alive : Nat → Bool) (data1 : RegistryDoc T) :
    (clean_stale_pids_apistep hasPsutil alive data1).procs = data1.procs := by
  unfold clean_stale_pids_apistep
  cases data1.apiPid with
  | none => rfl
  | some p =>
      simp only []
      split
      · rfl
      · rfl

lemma pidUnique_clean_stale_pids {T : Type} [LinearOrderedRing T]
    (hasPsutil : Bool) (alive : Nat → Bool) (now : T) (cwd : String)
    (d : RegistryDoc T) (h : pidUnique d) :
    pidUnique (clean_stale_pids hasPsutil alive now cwd d) := by
  have hmid := pidUnique_migrate hasPsutil alive now cwd d h
  have hp2 := procs_clean_stale_pids_apistep hasPsutil alive
    (migrate_legacy_structure hasPsutil alive now cwd d)
  unfold clean_stale_pids
  simp only []
  split
  · have hnod : ((clean_stale_pids_apistep hasPsutil alive
        (migrate_legacy_structure hasPsutil alive now cwd d)).procs.map
          Prod.fst).Nodup := by
      rw [hp2]
      exact hmid
    unfold pidUnique
    simp only [RegistryDoc.procs, Option.getD_some]
    exact List.Nodup.sublist ((List.filter_sublist _).map Prod.fst) hnod
  · exact pidUnique_of_procs_eq _ _ hp2 hmid

lemma pidUnique_rate_check {T : Type} [LinearOrderedRing T]
    (now : T) (port : Nat) (d : RegistryDoc T) (h : pidUnique d) :
    pidUnique (check_startup_rate_limit now port d).2 := by
  unfold check_startup_rate_limit update_and_check_rate_limit
  simp only []
  split
  · exact pidUnique_of_procs_eq d _ rfl h
  · exact pidUnique_of_procs_eq d _ rfl h

lemma pidUnique_applyOp {T : Type} [LinearOrderedRing T]
    (op : RegistryOp T) (d : RegistryDoc T) (h : pidUnique d) :
    pidUnique (applyOp op d) := by
  cases op with
  | regApiServer a p al n c pid => exact pidUnique_register_api_server a p al n c pid d h
  | regMcpClient p al n c cid pid => exact pidUnique_add_client p al n c cid pid d h
  | unregApiServer a l p al n c pid =>
      show pidUnique (unregister_api_server a l p al n c pid d).2
      unfold unregister_api_server
      split
      · exact h
      · split
        · exact h
        · exact pidUnique_unregister_api_pid p al n c pid d h
  | unregMcpClient p al n c cid pid w => exact pidUnique_remove_client p al n c cid pid d h
  | stalePass p al n c => exact pidUnique_cleanup_stale p al n c d h
  | preemptivePass p al n c => exact pidUnique_clean_stale_pids p al n c d h
  | rateLimitCheck n port => exact pidUnique_rate_check n port d h

lemma pidUnique_applyOps {T : Type} [LinearOrderedRing T]
    (ops : List (RegistryOp T)) :
    ∀ d : RegistryDoc T, pidUnique d → pidUnique (applyOps ops d) := by
  induction ops with
  | nil => intro d h; exact h
  | cons op rest ih =>
      intro d h
      exact ih _ (pidUnique_applyOp op d h)

lemma typeConsistent_of_pidUnique {T : Type} [LinearOrderedRing T]
    (d : RegistryDoc T) (h : pidUnique d) : typeConsistent d := by
  intro p i1 i2 h1 h2
  have := List.inj_on_of_nodup_map h h1 h2 rfl
  exact congrArg Prod.snd this

/-- Claim C4 (counterexample): on a document still carrying a legacy
client entry, a rejected MCP-client registration (PID 5 is already an
`api_server`) does NOT leave the `processes` mapping unchanged: the
updater migrates the legacy client (PID 7) into `processes` before it
detects the conflict, and the migrated document is what gets written. -/
theorem C4_counterexample_rejection_still_migrates :
    check_pid_conflict docLegacyMix 5 "mcp_client" = true
    ∧ (add_client true (fun _ => true) (0 : ℤ) "/repo" "client-x" 5
        docLegacyMix).procs ≠ docLegacyMix.procs := by
  exact ⟨by decide, by decide⟩

/-- Claim C4 (amended): a registration whose PID is already present under
a different type is rejected — the PID is not inserted.  An API-server
registration aborts before writing, leaving the whole document unchanged;
an MCP-client registration on an already-migrated (flat) document also
leaves the document unchanged, while on a legacy-shape document the
rejected registration may still migrate legacy entries into `processes`.
After any sequence of registry updates, the document has at most one
`processes` entry per PID and never carries one PID under two different
types. -/
theorem C4_registration_conflict_and_uniqueness :
    (∀ (T : Type) [LinearOrderedRing T] (hasAtomicOps hasPsutil : Bool)
        (alive : Nat → Bool) (now : T) (cwd : String) (pid : Nat)
        (d : RegistryDoc T),
      check_pid_conflict d pid "api_server" = true →
      register_api_server hasAtomicOps hasPsutil alive now cwd pid d
        = (false, d))
    ∧ (∀ (T : Type) [LinearOrderedRing T] (hasPsutil : Bool)
        (alive : Nat → Bool) (now : T) (cwd clientId : String) (pid : Nat)
        (d : RegistryDoc T),
      d.processes.isSome = true → optNatTruthy d.apiPid = false →
      d.clients = [] →
      check_pid_conflict d pid "mcp_client" = true →
      add_client hasPsutil alive now cwd clientId pid d = d)
    ∧ (∀ (T : Type) [LinearOrderedRing T] (ops : List (RegistryOp T))
        (d : RegistryDoc T),
      pidUnique d →
      pidUnique (applyOps ops d) ∧ typeConsistent (applyOps ops d)) := by
  refine ⟨?_, ?_, ?_⟩
  · intro T _ hasAtomicOps hasPsutil alive now cwd pid d hconf
    unfold register_api_server
    split
    · rfl
    · unfold register_api_pid
      rw [if_pos hconf]
  · intro T _ hasPsutil alive now cwd clientId pid d h1 h2 h3 hconf
    have hflat : migrate_legacy_structure hasPsutil alive now cwd d = d := by
      unfold migrate_legacy_structure
      rw [if_pos ⟨h1, h2, h3⟩]
    unfold add_client
    simp only [hflat]
    rw [if_pos hconf]
  · intro T _ ops d h
    exact ⟨pidUnique_applyOps ops d h,
      typeConsistent_of_pidUnique _ (pidUnique_applyOps ops d h)⟩

/-- Witness for `C4_registration_conflict_and_uniqueness`: a conflicting
API-server registration for PID 7 (registered as `mcp_client`) is
rejected with the document unchanged, and a short update sequence keeps
the per-PID uniqueness invariant. -/
theorem C4_registration_conflict_witness :
    check_pid_conflict docLiveMcp 7 "api_server" = true
    ∧ register_api_server true true (fun _ => true) (0 : ℤ) "/repo" 7 docLiveMcp
        = (false, docLiveMcp)
    ∧ pidUnique (applyOps
        [RegistryOp.regMcpClient true (fun _ => true) (0 : ℤ) "/repo" "c9" 9]
        docLiveMcp) :=
  ⟨by decide,
    C4_registration_conflict_and_uniqueness.1 ℤ true true (fun _ => true) 0
      "/repo" 7 docLiveMcp (by decide),
    (C4_registration_conflict_and_uniqueness.2.2 ℤ
      [RegistryOp.regMcpClient true (fun _ => true) (0 : ℤ) "/repo" "c9" 9]
      docLiveMcp (by unfold pidUnique; decide)).1⟩

lemma rate_check_blocked {T : Type} [LinearOrderedRing T] (now : T)
    (port : Nat) (d : RegistryDoc T)
    (h : 3 ≤ (((attemptsOf d port).filter fun t => now - 300 < t).filter
        fun t => now - 5 < t).length) :
    check_startup_rate_limit now port d = (false, rate_blocked_doc now port d) := by
  unfold check_startup_rate_limit update_and_check_rate_limit rate_blocked_doc
  simp only []
  rw [if_pos h]
  simp

lemma rate_check_admitted {T : Type} [LinearOrderedRing T] (now : T)
    (port : Nat) (d : RegistryDoc T)
    (h : (((attemptsOf d port).filter fun t => now - 300 < t).filter
        fun t => now - 5 < t).length < 3) :
    check_startup_rate_limit now port d = (true, rate_admit_doc now port d) := by
  unfold check_startup_rate_limit update_and_check_rate_limit rate_admit_doc
  simp only []
  rw [if_neg (by omega)]
  simp

lemma attemptsOf_rate_blocked_doc {T : Type} [LinearOrderedRing T] (now : T)
    (port : Nat) (d : RegistryDoc T) :
    attemptsOf (rate_blocked_doc now port d) port
      = (attemptsOf d port).filter fun t => now - 300 < t := by
  unfold rate_blocked_doc attemptsOf
  simp only []
  rw [alookup_aupdate_self]
  cases h : alookup d.rateLimits port with
  | none => simp [h]
  | some l => simp [h]

lemma attemptsOf_rate_admit_doc {T : Type} [LinearOrderedRing T] (now : T)
    (port : Nat) (d : RegistryDoc T) :
    attemptsOf (rate_admit_doc now port d) port
      = ((attemptsOf d port).filter fun t => now - 300 < t) ++ [now] := by
  unfold rate_admit_doc attemptsOf
  simp only []
  rw [alookup_ainsert_self]
  rfl

lemma rate_run_window_inv {T : Type} [LinearOrderedRing T] (port : Nat) :
    ∀ (times : List T) (d : RegistryDoc T) (acc : List T) (tprev : T),
      times.Pairwise (· ≤ ·) →
      (∀ t ∈ times, tprev ≤ t) →
      acc.Pairwise (· ≤ ·) →
      (∀ x ∈ acc, x ≤ tprev) →
      (acc.filter fun x => tprev - 300 < x) <+ attemptsOf d port →
      (∀ a b c e : T, [a, b, c, e] <+ acc → 5 ≤ e - a) →
      ∀ a b c e : T, [a, b, c, e] <+ acc ++ (rate_check_run port times d).2 →
        5 ≤ e - a := by
  intro times
  induction times with
  | nil =>
      intro d acc tprev _ _ _ _ _ hP a b c e hsub
      simp only [rate_check_run, List.append_nil] at hsub
      exact hP a b c e hsub
  | cons t ts ih =>
      intro d acc tprev hsorted hge haccs haccb hcont hP a b c e hsub
      have htprev_t : tprev ≤ t := hge t (by simp)
      have hts_sorted : ts.Pairwise (· ≤ ·) := (List.pairwise_cons.mp hsorted).2
      have ht_ts : ∀ s ∈ ts, t ≤ s := (List.pairwise_cons.mp hsorted).1
      have hcont_t : (acc.filter fun x => t - 300 < x)
          <+ ((attemptsOf d port).filter fun x => t - 300 < x) := by
        have h1 : ((acc.filter fun x => tprev - 300 < x).filter
            fun x => t - 300 < x)
            <+ ((attemptsOf d port).filter fun x => t - 300 < x) :=
          hcont.filter _
        have h2 : ((acc.filter fun x => tprev - 300 < x).filter
            fun x => t - 300 < x) = acc.filter fun x => t - 300 < x := by
          rw [List.filter_filter]
          refine List.filter_congr ?_
          intro x hx
          by_cases hxt : t - 300 < x
          · have hxp : tprev - 300 < x :=
              lt_of_le_of_lt (sub_le_sub_right htprev_t 300) hxt
            simp [hxt, hxp]
          · simp [hxt]
        rw [h2] at h1
        exact h1
      by_cases hblk : 3 ≤ (((attemptsOf d port).filter fun x => t - 300 < x).filter
          fun x => t - 5 < x).length
      · -- blocked step: nothing recorded, nothing admitted
        rw [show rate_check_run port (t :: ts) d
            = ((rate_check_run port ts (rate_blocked_doc t port d)).1,
               (rate_check_run port ts (rate_blocked_doc t port d)).2) from by
          simp [rate_check_run, rate_check_blocked t port d hblk]] at hsub
        refine ih (rate_blocked_doc t port d) acc t hts_sorted ht_ts haccs
          (fun x hx => le_trans (haccb x hx) htprev_t) ?_ hP a b c e hsub
        rw [attemptsOf_rate_blocked_doc]
        exact hcont_t
      · -- admitted step: t is recorded and admitted
        push_neg at hblk
        rw [show rate_check_run port (t :: ts) d
            = ((rate_check_run port ts (rate_admit_doc t port d)).1,
               t :: (rate_check_run port ts (rate_admit_doc t port d)).2) from by
          simp [rate_check_run, rate_check_admitted t port d hblk]] at hsub
        rw [List.append_cons] at hsub
        refine ih (rate_admit_doc t port d) (acc ++ [t]) t hts_sorted ht_ts
          ?_ ?_ ?_ ?_ a b c e hsub
        · refine List.pairwise_append.mpr ⟨haccs, List.pairwise_singleton _ _, ?_⟩
          intro x hx y hy
          rw [List.mem_singleton] at hy
          subst hy
          exact le_trans (haccb x hx) htprev_t
        · intro x hx
          rcases List.mem_append.mp hx with hx | hx
          · exact le_trans (haccb x hx) htprev_t
          · rw [List.mem_singleton] at hx
            subst hx
            exact le_refl x
        · rw [attemptsOf_rate_admit_doc, List.filter_append]
          rw [show ([t].filter fun x => t - 300 < x) = [t] from by simp]
          exact hcont_t.append (List.Sublist.refl [t])
        · intro a' b' c' e' hq
          rcases List.sublist_append_iff.mp hq with ⟨x, y, hxy, hx, hy⟩
          have hy' : y = [] ∨ y = [t] := by
            cases hy with
            | cons _ h2 => left; exact List.sublist_nil.mp h2
            | cons₂ _ h2 => right; rw [List.sublist_nil.mp h2]
          rcases hy' with hy' | hy'
          · subst hy'
            rw [List.append_nil] at hxy
            subst hxy
            exact hP a' b' c' e' hx
          · subst hy'
            have hxy' : [a', b', c'] ++ [e'] = x ++ [t] := by simpa using hxy
            obtain ⟨hx', ht'⟩ := List.append_inj' hxy' rfl
            have het : e' = t := by injection ht'
            subst hx'
            subst e'
            by_contra hlt
            push_neg at hlt
            have hsorted3 : ([a', b', c'] : List T).Pairwise (· ≤ ·) :=
              haccs.sublist hx
            have hab : a' ≤ b' := (List.pairwise_cons.mp hsorted3).1 b' (by simp)
            have hac : a' ≤ c' := (List.pairwise_cons.mp hsorted3).1 c' (by simp)
            have hz5 : t - 5 < a' := sub_lt_comm.mp hlt
            have hfive : ∀ z ∈ ([a', b', c'] : List T), t - 5 < z := by
              intro z hz
              rcases List.mem_cons.mp hz with rfl | hz
              · exact hz5
              rcases List.mem_cons.mp hz with rfl | hz
              · exact lt_of_lt_of_le hz5 hab
              rw [List.mem_singleton] at hz
              subst hz
              exact lt_of_lt_of_le hz5 hac
            have h300 : ∀ z ∈ ([a', b', c'] : List T), t - 300 < z := by
              intro z hz
              refine lt_of_le_of_lt ?_ (hfive z hz)
              exact sub_le_sub_left (by norm_num : (5 : T) ≤ 300) t
            have hs1 : ([a', b', c'] : List T)
                <+ acc.filter fun x => t - 300 < x := by
              have hfs := hx.filter fun x => t - 300 < x
              rw [List.filter_eq_self.mpr
                (fun z hz => by simpa using h300 z hz)] at hfs
              exact hfs
            have hs2 : ([a', b', c'] : List T)
                <+ (attemptsOf d port).filter fun x => t - 300 < x :=
              hs1.trans hcont_t
            have hs3 : ([a', b', c'] : List T)
                <+ ((attemptsOf d port).filter fun x => t - 300 < x).filter
                    fun x => t - 5 < x := by
              have hfs := hs2.filter fun x => t - 5 < x
              rw [List.filter_eq_self.mpr
                (fun z hz => by simpa using hfive z hz)] at hfs
              exact hfs
            have hlen3 := hs3.length_le
            simp only [List.length_cons, List.length_nil] at hlen3
            omega

/-- Claim C2: a startup check made while 3 or more recorded (admitted)
attempts lie in the preceding 5 seconds returns false and does not record
the attempt (the stored list is merely pruned); a check made otherwise
records its timestamp and returns true; and consequently, along any
time-ordered sequence of checks on one port, any four admitted attempts
span at least 5 seconds — at most 3 startup attempts are admitted within
any 5-second window, and the 4th within the window is rejected. -/
theorem C2_rate_limiter_window :
    (∀ (T : Type) [LinearOrderedRing T] (now : T) (port : Nat)
        (d : RegistryDoc T),
      3 ≤ (((attemptsOf d port).filter fun x => now - 300 < x).filter
          fun x => now - 5 < x).length →
      (check_startup_rate_limit now port d).1 = false
      ∧ attemptsOf (check_startup_rate_limit now port d).2 port
          = (attemptsOf d port).filter fun x => now - 300 < x)
    ∧ (∀ (T : Type) [LinearOrderedRing T] (now : T) (port : Nat)
        (d : RegistryDoc T),
      (((attemptsOf d port).filter fun x => now - 300 < x).filter
          fun x => now - 5 < x).length < 3 →
      (check_startup_rate_limit now port d).1 = true
      ∧ attemptsOf (check_startup_rate_limit now port d).2 port
          = ((attemptsOf d port).filter fun x => now - 300 < x) ++ [now])
    ∧ (∀ (T : Type) [LinearOrderedRing T] (port : Nat) (times : List T)
        (d0 : RegistryDoc T), times.Pairwise (· ≤ ·) →
      ∀ a b c e : T, [a, b, c, e] <+ (rate_check_run port times d0).2 →
        5 ≤ e - a) := by
  refine ⟨?_, ?_, ?_⟩
  · intro T _ now port d h
    rw [rate_check_blocked now port d h]
    exact ⟨rfl, attemptsOf_rate_blocked_doc now port d⟩
  · intro T _ now port d h
    rw [rate_check_admitted now port d h]
    exact ⟨rfl, attemptsOf_rate_admit_doc now port d⟩
  · intro T _ port times d0 hsorted a b c e hsub
    cases times with
    | nil =>
        simp only [rate_check_run] at hsub
        have := hsub.length_le
        simp at this
    | cons t ts =>
        refine rate_run_window_inv port (t :: ts) d0 [] t hsorted ?_
          (List.Pairwise.nil) (by simp) (List.nil_sublist _) ?_ a b c e
          (by simpa using hsub)
        · intro s hs
          rcases List.mem_cons.mp hs with rfl | hs
          · exact le_refl s
          · exact (List.pairwise_cons.mp hsorted).1 s hs
        · intro a' b' c' e' hq
          have := hq.length_le
          simp at this

/-- Witness for `C2_rate_limiter_window`: on a registry already holding
admitted attempts at times 0, 1 and 2, a 4th check at time 4 (inside the
5-second window) is rejected; a check on a fresh port is admitted; and in
the run [0, 1, 2, 7] on a fresh port all four checks are admitted, so the
4th admitted attempt lies at least 5 seconds after the 1st. -/
theorem C2_rate_limiter_window_witness :
    ((check_startup_rate_limit (4 : ℤ) 6969 docThreeAttempts).1 = false
      ∧ attemptsOf (check_startup_rate_limit (4 : ℤ) 6969 docThreeAttempts).2
          6969 = (attemptsOf docThreeAttempts 6969).filter
            fun x => (4 : ℤ) - 300 < x)
    ∧ (check_startup_rate_limit (10 : ℤ) 7070 docThreeAttempts).1 = true
    ∧ (5 : ℤ) ≤ 7 - 0 :=
  ⟨C2_rate_limiter_window.1 ℤ 4 6969 docThreeAttempts (by decide),
   (C2_rate_limiter_window.2.1 ℤ 10 7070 docThreeAttempts (by decide)).1,
   C2_rate_limiter_window.2.2 ℤ 8080 [0, 1, 2, 7] docThreeAttempts (by decide)
     0 1 2 7 (by decide)⟩

end HeadlessPM
